import Mathlib

/-!
Verification of the DWB local-planner core (navigation_learning repository).

The development shallowly embeds the planner's decision core over exact
rational arithmetic: machine doubles become `ℚ`, and the transcendental
functions used only for pose integration and distance discretization
(cos, sin, sqrt) are abstracted as an oracle parameter, so every theorem
holds for the true functions in particular.
-/

namespace DWB

/-- Planar pose (x, y, heading), mirroring geometry_msgs Pose2D. -/
structure Pose2D where
  x : ℚ
  y : ℚ
  theta : ℚ
deriving DecidableEq

/-- Planar velocity (vx, vy, vtheta), mirroring nav_2d_msgs Twist2D. -/
structure Twist2D where
  x : ℚ
  y : ℚ
  theta : ℚ
deriving DecidableEq

/-- The all-zero twist. -/
def Twist2D.zero : Twist2D := ⟨0, 0, 0⟩

/-- The raw kinematic parameters, one field per ROS parameter read by
`KinematicParameters::initialize` (kinematic_parameters.cpp lines 76-89). -/
structure KinematicSettings where
  min_vel_x : ℚ
  max_vel_x : ℚ
  min_vel_y : ℚ
  max_vel_y : ℚ
  max_vel_theta : ℚ
  min_speed_xy : ℚ
  max_speed_xy : ℚ
  min_speed_theta : ℚ
  acc_lim_x : ℚ
  acc_lim_y : ℚ
  acc_lim_theta : ℚ
  decel_lim_x : ℚ
  decel_lim_y : ℚ
  decel_lim_theta : ℚ
deriving DecidableEq

/-- The state of a `KinematicParameters` object: the raw settings plus the
two cached squares that `initialize` computes (kinematic_parameters.cpp
lines 91-92). -/
structure KinematicParameters where
  s : KinematicSettings
  min_speed_xy_sq : ℚ
  max_speed_xy_sq : ℚ
deriving DecidableEq

/-- The state produced by `KinematicParameters::initialize`: the cached
squares are the squares of the corresponding raw speeds
(kinematic_parameters.cpp lines 91-92). -/
def KinematicParameters.fromSettings (s : KinematicSettings) : KinematicParameters :=
  ⟨s, s.min_speed_xy * s.min_speed_xy, s.max_speed_xy * s.max_speed_xy⟩

/-- The predicate `KinematicParameters::isValidSpeed` (kinematic_parameters.cpp
lines 95-103), translated clause for clause: three guarded early-false returns,
comparing the squared translational magnitude against the cached squared
thresholds. -/
def isValidSpeed (k : KinematicParameters) (x y theta : ℚ) : Bool :=
  let vmag_sq := x * x + y * y
  if 0 ≤ k.s.max_speed_xy ∧ k.max_speed_xy_sq < vmag_sq then false
  else if 0 ≤ k.s.min_speed_xy ∧ vmag_sq < k.min_speed_xy_sq ∧
      0 ≤ k.s.min_speed_theta ∧ |theta| < k.s.min_speed_theta then false
  else if vmag_sq = 0 ∧ theta = 0 then false
  else true

/-- Rational-level characterization of when `isValidSpeed` rejects, on an
object built by `initialize` (so the cached squares are consistent). -/
theorem isValidSpeed_false_iff_sq (s : KinematicSettings) (x y theta : ℚ) :
    isValidSpeed (KinematicParameters.fromSettings s) x y theta = false ↔
      (0 ≤ s.max_speed_xy ∧ s.max_speed_xy * s.max_speed_xy < x * x + y * y)
      ∨ (0 ≤ s.min_speed_xy ∧ x * x + y * y < s.min_speed_xy * s.min_speed_xy ∧
          0 ≤ s.min_speed_theta ∧ |theta| < s.min_speed_theta)
      ∨ (x * x + y * y = 0 ∧ theta = 0) := by
  simp only [isValidSpeed, KinematicParameters.fromSettings]
  split_ifs with h1 h2 h3
  · simpa using Or.inl h1
  · simpa using Or.inr (Or.inl h2)
  · simpa using Or.inr (Or.inr h3)
  · simp only [show (true = false) = False by simp, false_iff]
    rintro (h | h | h)
    · exact h1 h
    · exact h2 h
    · exact h3 h

/-- The real combined translational magnitude hypot(x, y) of a rational twist. -/
noncomputable def hypotR (x y : ℚ) : ℝ := Real.sqrt ((x : ℝ) ^ 2 + (y : ℝ) ^ 2)

lemma hypotR_arg_nonneg (x y : ℚ) : (0 : ℝ) ≤ (x : ℝ) ^ 2 + (y : ℝ) ^ 2 := by positivity

lemma hypotR_arg_cast (x y : ℚ) : (x : ℝ) ^ 2 + (y : ℝ) ^ 2 = ((x * x + y * y : ℚ) : ℝ) := by
  push_cast
  ring

/-- For a nonnegative rational threshold m, hypot(x, y) > m iff the squared
comparison that the code performs holds. -/
lemma lt_hypotR_iff (x y m : ℚ) (hm : 0 ≤ m) :
    (m : ℝ) < hypotR x y ↔ m * m < x * x + y * y := by
  rw [hypotR, Real.lt_sqrt (by exact_mod_cast hm), hypotR_arg_cast,
    show ((m : ℝ)) ^ 2 = ((m * m : ℚ) : ℝ) by push_cast; ring]
  exact Rat.cast_lt

/-- For a nonnegative rational threshold m, hypot(x, y) < m iff the squared
comparison that the code performs holds. -/
lemma hypotR_lt_iff (x y m : ℚ) (hm : 0 ≤ m) :
    hypotR x y < (m : ℝ) ↔ x * x + y * y < m * m := by
  rcases eq_or_lt_of_le hm with h0 | h0
  · rw [← h0]
    push_cast
    exact iff_of_false (not_lt.mpr (Real.sqrt_nonneg _))
      (by nlinarith [mul_self_nonneg x, mul_self_nonneg y])
  · rw [hypotR, Real.sqrt_lt' (by exact_mod_cast h0), hypotR_arg_cast,
      show ((m : ℝ)) ^ 2 = ((m * m : ℚ) : ℝ) by push_cast; ring]
    exact Rat.cast_lt

/-- hypot(x, y) is zero iff the squared magnitude the code computes is zero. -/
lemma hypotR_eq_zero_iff (x y : ℚ) : hypotR x y = 0 ↔ x * x + y * y = 0 := by
  rw [hypotR, Real.sqrt_eq_zero (hypotR_arg_nonneg x y), hypotR_arg_cast]
  exact Rat.cast_eq_zero

/-- Claim C2: `isValidSpeed(vx, vy, vtheta)` returns false exactly when (a) the
configured max combined magnitude is non-negative and hypot(vx, vy) exceeds
it, or (b) the configured min combined magnitude is non-negative and not met
and the configured min rotational speed is non-negative and not met, or
(c) hypot(vx, vy) and vtheta are both exactly zero; and returns true
otherwise. -/
theorem isValidSpeed_false_iff (s : KinematicSettings) (x y theta : ℚ) :
    isValidSpeed (KinematicParameters.fromSettings s) x y theta = false ↔
      (0 ≤ s.max_speed_xy ∧ (s.max_speed_xy : ℝ) < hypotR x y)
      ∨ (0 ≤ s.min_speed_xy ∧ hypotR x y < (s.min_speed_xy : ℝ) ∧
          0 ≤ s.min_speed_theta ∧ |theta| < s.min_speed_theta)
      ∨ (hypotR x y = 0 ∧ theta = 0) := by
  rw [isValidSpeed_false_iff_sq]
  constructor <;> rintro (h | h | h)
  · exact Or.inl ⟨h.1, (lt_hypotR_iff x y _ h.1).mpr h.2⟩
  · exact Or.inr (Or.inl ⟨h.1, (hypotR_lt_iff x y _ h.1).mpr h.2.1, h.2.2⟩)
  · exact Or.inr (Or.inr ⟨(hypotR_eq_zero_iff x y).mpr h.1, h.2⟩)
  · exact Or.inl ⟨h.1, (lt_hypotR_iff x y _ h.1).mp h.2⟩
  · exact Or.inr (Or.inl ⟨h.1, (hypotR_lt_iff x y _ h.1).mp h.2.1, h.2.2⟩)
  · exact Or.inr (Or.inr ⟨(hypotR_eq_zero_iff x y).mp h.1, h.2⟩)

/-- Claim C10: if either minimum-speed threshold is disabled (negative),
`isValidSpeed` can reject only through the max-magnitude check or the
exact-zero check; the minimum-speed rejection is disabled entirely. -/
theorem isValidSpeed_min_disabled (s : KinematicSettings) (x y theta : ℚ)
    (h : s.min_speed_xy < 0 ∨ s.min_speed_theta < 0) :
    isValidSpeed (KinematicParameters.fromSettings s) x y theta = false ↔
      (0 ≤ s.max_speed_xy ∧ s.max_speed_xy * s.max_speed_xy < x * x + y * y)
      ∨ (x * x + y * y = 0 ∧ theta = 0) := by
  rw [isValidSpeed_false_iff_sq]
  constructor
  · rintro (hc | hc | hc)
    · exact Or.inl hc
    · rcases h with h | h
      · exact absurd hc.1 (not_le.mpr h)
      · exact absurd hc.2.2.1 (not_le.mpr h)
    · exact Or.inr hc
  · rintro (hc | hc)
    · exact Or.inl hc
    · exact Or.inr (Or.inr hc)

/-- Modelled from the spec: the per-axis velocity projection of the
Velocity Sample Space and Trajectory Generator (the OneDVelocityIterator /
`computeNewVelocity` helper of dwb_plugins, whose .cpp body is not in the
source tree; only standard_traj_generator.hpp declares it). Spec section 4.3:
the velocity moves from `v0` toward `target`, by at most `accel * dt` when
increasing and at most `decel * dt` when decreasing (decel is signed
negative). -/
def projectVelocity (v0 accel decel dt target : ℚ) : ℚ :=
  if v0 ≤ target then min target (v0 + accel * dt)
  else max target (v0 + decel * dt)

/-- Modelled from the spec: zero-sample injection pass of one axis of the
Velocity Sample Space (dwb_plugins velocity iterator, .cpp not in the source
tree). Spec section 4.2 injects a fixed-point zero sample so pure-translation
candidates are represented; the repository's velocity-iterator tests
(no_limits vs. no_limits_samples) pin down the condition: a zero sample is
inserted after the last negative sample `a` exactly when the next grid step
from `a` lands strictly past zero while staying in range, i.e. the evenly
spaced grid strictly straddles zero; at most one zero is inserted. -/
def injectZero (inc maxV : ℚ) : List ℚ → List ℚ
  | [] => []
  | a :: rest =>
      if a < 0 ∧ 0 < a + inc ∧ a + inc ≤ maxV then a :: 0 :: rest
      else a :: injectZero inc maxV rest

/-- Modelled from the spec: one axis of the Velocity Sample Space
(dwb_plugins velocity iterator, .cpp not in the source tree). The current
velocity is clamped into the absolute limits, the reachable window
[minV, maxV] is obtained by projecting toward each limit for `accTime`
seconds under the acceleration/deceleration limits, and the window is
subdivided into `n` evenly spaced samples (at least 2 whenever the window is
wider than the 1e-5 epsilon), with a zero sample injected when the grid
strictly straddles zero. -/
def axisSamples (cur lo hi accel decel accTime : ℚ) (n : ℕ) : List ℚ :=
  let c := if cur < lo then lo else if hi < cur then hi else cur
  let maxV := projectVelocity c accel decel accTime hi
  let minV := projectVelocity c accel decel accTime lo
  if |maxV - minV| < 1 / 100000 then [minV]
  else
    let m := max 2 n
    let inc := (maxV - minV) / ((m : ℚ) - 1)
    let base := (List.range m).map fun k => minV + (k : ℚ) * inc
    if minV < 0 ∧ 0 < maxV then injectZero inc maxV base else base

/-- Modelled from the spec: the full Velocity Sample Space (the
XYThetaIterator of dwb_plugins, .cpp not in the source tree). It enumerates
the x-by-y-by-theta grid of per-axis samples (x outermost, theta innermost)
and yields exactly the twists that satisfy `isValidSpeed`; invalid twists
are skipped, not yielded. The theta axis ranges over [-max_vel_theta,
max_vel_theta]. Both sampling policies funnel through this enumeration: the
full-static-limits policy passes the simulation horizon as `accTime` (so the
reachable window saturates at the absolute limits), the dynamic-window
policy passes the control period. -/
def gridTwists (xs ys ths : List ℚ) : List Twist2D :=
  xs.flatMap fun x => ys.flatMap fun y => ths.map fun th => Twist2D.mk x y th

def getTwists (k : KinematicParameters) (nx ny nth : ℕ) (accTime : ℚ)
    (cur : Twist2D) : List Twist2D :=
  (gridTwists
    (axisSamples cur.x k.s.min_vel_x k.s.max_vel_x k.s.acc_lim_x k.s.decel_lim_x accTime nx)
    (axisSamples cur.y k.s.min_vel_y k.s.max_vel_y k.s.acc_lim_y k.s.decel_lim_y accTime ny)
    (axisSamples cur.theta (-k.s.max_vel_theta) k.s.max_vel_theta
      k.s.acc_lim_theta k.s.decel_lim_theta accTime nth)).filter
    fun t => isValidSpeed k t.x t.y t.theta

/-- The default kinematic configuration of the repository's velocity-iterator
tests (getDefaultKinematicParameters in the dwb_plugins test file). -/
def defaultSettings : KinematicSettings :=
  { min_vel_x := 0, max_vel_x := 11/20
    min_vel_y := -1/10, max_vel_y := 1/10
    max_vel_theta := 1
    min_speed_xy := 1/10, max_speed_xy := 11/20, min_speed_theta := 2/5
    acc_lim_x := 5/2, acc_lim_y := 5/2, acc_lim_theta := 16/5
    decel_lim_x := -5/2, decel_lim_y := -5/2, decel_lim_theta := -16/5 }

/-- The default settings with all three magnitude thresholds disabled via the
negative sentinel, as in the no_limits tests. -/
def noLimitsSettings : KinematicSettings :=
  { defaultSettings with max_speed_xy := -1, min_speed_xy := -1, min_speed_theta := -1 }

/-- The default settings with only the minimum rotational-speed threshold
disabled, as in the min_theta test. -/
def minThetaDisabledSettings : KinematicSettings :=
  { defaultSettings with min_speed_theta := -1 }

/-- Witness for claim C10 at the min_theta test configuration (defaults with
min_speed_theta = -1): the characterization applies, and in particular the
twist (0.05, 0, 0) — slower than min_speed_xy = 0.1 with zero rotation — is
accepted. -/
theorem isValidSpeed_min_disabled_witness :
    (minThetaDisabledSettings.min_speed_xy < 0 ∨
      minThetaDisabledSettings.min_speed_theta < 0) ∧
    (isValidSpeed (KinematicParameters.fromSettings minThetaDisabledSettings)
        (1/20) 0 0 = false ↔
      (0 ≤ minThetaDisabledSettings.max_speed_xy ∧
        minThetaDisabledSettings.max_speed_xy * minThetaDisabledSettings.max_speed_xy
          < 1/20 * (1/20) + 0 * 0)
      ∨ ((1/20 : ℚ) * (1/20) + 0 * 0 = 0 ∧ (0 : ℚ) = 0)) ∧
    isValidSpeed (KinematicParameters.fromSettings minThetaDisabledSettings)
      (1/20) 0 0 = true :=
  ⟨by with_unfolding_all decide,
    isValidSpeed_min_disabled minThetaDisabledSettings (1/20) 0 0
      (by with_unfolding_all decide),
    by with_unfolding_all decide⟩


/-- Length of one y-by-theta slice of the candidate grid. -/
lemma length_slice (x : ℚ) (ys ths : List ℚ) :
    (ys.flatMap fun y => (ths.map fun th => Twist2D.mk x y th)).length =
      ys.length * ths.length := by
  induction ys with
  | nil => simp
  | cons y ys ihy =>
      simp [List.flatMap_cons, ihy, Nat.succ_mul]
      ring

/-- Length of the x-by-y-by-theta candidate grid. -/
lemma length_gridTwists (xs ys ths : List ℚ) :
    (gridTwists xs ys ths).length = xs.length * ys.length * ths.length := by
  unfold gridTwists
  induction xs with
  | nil => simp
  | cons x xs ih =>
      simp only [List.flatMap_cons, List.length_append, ih, List.length_cons,
        length_slice]
      ring

/-- Occurrences of a fixed twist in one theta row of the grid. -/
lemma count_row (x y : ℚ) (ths : List ℚ) (a b c : ℚ) :
    ((ths.map fun th => Twist2D.mk x y th).count (Twist2D.mk a b c)) =
      if x = a ∧ y = b then ths.count c else 0 := by
  induction ths with
  | nil => simp
  | cons t ts ih =>
      simp only [List.map_cons, List.count_cons, ih, beq_iff_eq, Twist2D.mk.injEq]
      split_ifs with h1 h2 h2 <;> simp_all

/-- Occurrences of a fixed twist in one y-by-theta slice of the grid. -/
lemma count_slice (x : ℚ) (ys ths : List ℚ) (a b c : ℚ) :
    ((ys.flatMap fun y => (ths.map fun th => Twist2D.mk x y th)).count
        (Twist2D.mk a b c)) =
      if x = a then ys.count b * ths.count c else 0 := by
  induction ys with
  | nil => simp
  | cons y ys ihy =>
      simp only [List.flatMap_cons, List.count_append, ihy, count_row,
        List.count_cons, beq_iff_eq]
      split_ifs with h1 h2 h3 <;> (try simp_all)
      ring

/-- Occurrences of a fixed twist in the full grid factor through the axes. -/
lemma count_gridTwists (xs ys ths : List ℚ) (a b c : ℚ) :
    (gridTwists xs ys ths).count (Twist2D.mk a b c) =
      xs.count a * ys.count b * ths.count c := by
  unfold gridTwists
  induction xs with
  | nil => simp
  | cons x xs ih =>
      simp only [List.flatMap_cons, List.count_append, ih, count_slice,
        List.count_cons, beq_iff_eq]
      split_ifs with h1 <;> (try simp_all)
      ring

/-- If the filter predicate fails exactly at one distinguished element, the
filtered length plus that element's multiplicity recovers the full length. -/
lemma length_filter_add_count (p : α → Bool) (z : α) [DecidableEq α]
    (h : ∀ t, p t = false ↔ t = z) :
    ∀ l : List α, (l.filter p).length + l.count z = l.length := by
  intro l
  induction l with
  | nil => simp
  | cons a l ih =>
      cases hpa : p a with
      | false =>
          have ha : a = z := (h a).mp hpa
          subst ha
          simp [List.filter_cons, hpa, List.count_cons]
          omega
      | true =>
          have ha : a ≠ z := by
            intro e
            subst e
            rw [(h a).mpr rfl] at hpa
            cases hpa
          simp [List.filter_cons, hpa, List.count_cons, ha]
          omega

/-- With all three magnitude thresholds disabled, `isValidSpeed` rejects
exactly the all-zero twist. -/
lemma isValidSpeed_noLimits_iff_zero (t : Twist2D) :
    (isValidSpeed (KinematicParameters.fromSettings noLimitsSettings) t.x t.y t.theta
      = false) ↔ t = Twist2D.zero := by
  rw [isValidSpeed_false_iff_sq]
  have hmax : noLimitsSettings.max_speed_xy = -1 := rfl
  have hmin : noLimitsSettings.min_speed_xy = -1 := rfl
  rw [hmax, hmin]
  norm_num
  constructor
  · rintro ⟨hs, hth⟩
    have hx : t.x = 0 ∧ t.y = 0 := by
      constructor <;> nlinarith [mul_self_nonneg t.x, mul_self_nonneg t.y]
    cases t
    simp_all [Twist2D.zero]
  · rintro rfl
    simp [Twist2D.zero]

/-- The candidate count with thresholds disabled is the grid size minus one:
the all-zero twist is the unique rejected candidate whenever zero appears on
every axis exactly once. -/
lemma getTwists_noLimits_length (nx ny nth : ℕ) (accTime : ℚ) (cur : Twist2D)
    (lx ly lth cx cy cth : ℕ)
    (hlx : (axisSamples cur.x noLimitsSettings.min_vel_x noLimitsSettings.max_vel_x
      noLimitsSettings.acc_lim_x noLimitsSettings.decel_lim_x accTime nx).length = lx)
    (hly : (axisSamples cur.y noLimitsSettings.min_vel_y noLimitsSettings.max_vel_y
      noLimitsSettings.acc_lim_y noLimitsSettings.decel_lim_y accTime ny).length = ly)
    (hlth : (axisSamples cur.theta (-noLimitsSettings.max_vel_theta)
      noLimitsSettings.max_vel_theta noLimitsSettings.acc_lim_theta
      noLimitsSettings.decel_lim_theta accTime nth).length = lth)
    (hcx : (axisSamples cur.x noLimitsSettings.min_vel_x noLimitsSettings.max_vel_x
      noLimitsSettings.acc_lim_x noLimitsSettings.decel_lim_x accTime nx).count 0 = cx)
    (hcy : (axisSamples cur.y noLimitsSettings.min_vel_y noLimitsSettings.max_vel_y
      noLimitsSettings.acc_lim_y noLimitsSettings.decel_lim_y accTime ny).count 0 = cy)
    (hcth : (axisSamples cur.theta (-noLimitsSettings.max_vel_theta)
      noLimitsSettings.max_vel_theta noLimitsSettings.acc_lim_theta
      noLimitsSettings.decel_lim_theta accTime nth).count 0 = cth) :
    (getTwists (KinematicParameters.fromSettings noLimitsSettings) nx ny nth accTime
      cur).length + cx * cy * cth = lx * ly * lth := by
  have key : ∀ X Y TH : List ℚ,
      ((gridTwists X Y TH).filter (fun t =>
        isValidSpeed (KinematicParameters.fromSettings noLimitsSettings)
          t.x t.y t.theta)).length + X.count 0 * Y.count 0 * TH.count 0 =
        X.length * Y.length * TH.length := by
    intro X Y TH
    have h := length_filter_add_count
      (fun t => isValidSpeed (KinematicParameters.fromSettings noLimitsSettings) t.x t.y t.theta)
      Twist2D.zero (fun t => isValidSpeed_noLimits_iff_zero t) (gridTwists X Y TH)
    rw [show Twist2D.zero = Twist2D.mk 0 0 0 from rfl, count_gridTwists,
      length_gridTwists] at h
    exact h
  unfold getTwists
  have h2 := key
    (axisSamples cur.x noLimitsSettings.min_vel_x noLimitsSettings.max_vel_x
      noLimitsSettings.acc_lim_x noLimitsSettings.decel_lim_x accTime nx)
    (axisSamples cur.y noLimitsSettings.min_vel_y noLimitsSettings.max_vel_y
      noLimitsSettings.acc_lim_y noLimitsSettings.decel_lim_y accTime ny)
    (axisSamples cur.theta (-noLimitsSettings.max_vel_theta)
      noLimitsSettings.max_vel_theta noLimitsSettings.acc_lim_theta
      noLimitsSettings.decel_lim_theta accTime nth)
  rw [hlx, hly, hlth, hcx, hcy, hcth] at h2
  exact h2

/-- At the no_limits_samples test configuration (thresholds disabled,
Sx = 10, Sy = 3, St = 5, zero current velocity, 1.7 s horizon) the sample
space holds 149 candidates: each axis grid contains zero exactly once (the
odd theta count puts zero on the theta grid, so nothing is injected), and
the lone all-zero twist is rejected. -/
lemma getTwists_noLimits_10_3_5 :
    (getTwists (KinematicParameters.fromSettings noLimitsSettings) 10 3 5 (17/10)
      Twist2D.zero).length = 149 := by
  have h := getTwists_noLimits_length 10 3 5 (17/10) Twist2D.zero 10 3 5 1 1 1
    (by with_unfolding_all decide) (by with_unfolding_all decide)
    (by with_unfolding_all decide) (by with_unfolding_all decide)
    (by with_unfolding_all decide) (by with_unfolding_all decide)
  omega

/-- At the no_limits test configuration (thresholds disabled, Sx = 20,
Sy = 5, St = 20, zero current velocity, 1.7 s horizon) the sample space
holds 2099 candidates: the even theta grid strictly straddles zero, so a
21st zero-theta sample is injected per (x, y) cell, and the lone all-zero
twist is rejected. -/
lemma getTwists_noLimits_20_5_20 :
    (getTwists (KinematicParameters.fromSettings noLimitsSettings) 20 5 20 (17/10)
      Twist2D.zero).length = 2099 := by
  have h := getTwists_noLimits_length 20 5 20 (17/10) Twist2D.zero 20 5 21 1 1 1
    (by with_unfolding_all decide) (by with_unfolding_all decide)
    (by with_unfolding_all decide) (by with_unfolding_all decide)
    (by with_unfolding_all decide) (by with_unfolding_all decide)
  omega

/-- Counterexample to claim C1: the cardinality formula Sx*Sy*St + Sx*Sy - 1
does not hold for every configured sample counts. At the repository's own
test configuration (no_limits_samples: thresholds disabled, Sx = 10, Sy = 3,
St = 5, zero current velocity) the sample space holds 10*3*5 - 1 = 149
candidates, not 10*3*5 + 10*3 - 1 = 179: with an odd theta sample count over
the symmetric theta range the evenly spaced theta grid already contains
zero, so no zero-theta slice is injected. -/
theorem getTwists_count_formula_counterexample :
    (getTwists (KinematicParameters.fromSettings noLimitsSettings) 10 3 5 (17/10)
      Twist2D.zero).length = 149 ∧
    ¬ ((getTwists (KinematicParameters.fromSettings noLimitsSettings) 10 3 5 (17/10)
      Twist2D.zero).length = 10 * 3 * 5 + 10 * 3 - 1) := by
  rw [getTwists_noLimits_10_3_5]
  omega

/-- Claim C1 as amended: with the full-static-limits policy and all
magnitude thresholds disabled, the candidate count is Sx*Sy*St + Sx*Sy - 1
when the evenly spaced theta grid strictly straddles zero without containing
it (so the zero-theta slice adds one sample per (x, y) cell): at the cited
configuration Sx = 20, Sy = 5, St = 20 this gives 2099 candidates. When the
theta grid already contains zero (odd St over the symmetric default range)
nothing is injected and the count is Sx*Sy*St - 1, as in the repository's
no_limits_samples test. -/
theorem getTwists_count_default_samples :
    (getTwists (KinematicParameters.fromSettings noLimitsSettings) 20 5 20 (17/10)
      Twist2D.zero).length = 20 * 5 * 20 + 20 * 5 - 1 ∧
    (getTwists (KinematicParameters.fromSettings noLimitsSettings) 10 3 5 (17/10)
      Twist2D.zero).length = 10 * 3 * 5 - 1 := by
  rw [getTwists_noLimits_10_3_5, getTwists_noLimits_20_5_20]
  omega

/-- Claim C5: every twist yielded by the Velocity Sample Space satisfies
`isValidSpeed` — for every configuration and current velocity (hence under
either sampling policy: the two policies differ only in the `accTime`
argument), a twist failing `isValidSpeed` is never yielded. -/
theorem getTwists_isValidSpeed (k : KinematicParameters) (nx ny nth : ℕ)
    (accTime : ℚ) (cur : Twist2D) (t : Twist2D)
    (ht : t ∈ getTwists k nx ny nth accTime cur) :
    isValidSpeed k t.x t.y t.theta = true := by
  have := List.of_mem_filter ht
  simpa using this

/-- Witness for claim C5 at a concrete configuration: a twist of the
no-limits sample space with 2 x 2 x 2 samples is a member and is
kinematically valid. -/
theorem getTwists_isValidSpeed_witness :
    (Twist2D.mk 0 (-1/10) (-1) ∈
      getTwists (KinematicParameters.fromSettings noLimitsSettings) 2 2 2 (17/10)
        Twist2D.zero) ∧
    isValidSpeed (KinematicParameters.fromSettings noLimitsSettings) 0 (-1/10) (-1) = true :=
  ⟨by with_unfolding_all decide,
    getTwists_isValidSpeed (KinematicParameters.fromSettings noLimitsSettings) 2 2 2
      (17/10) Twist2D.zero (Twist2D.mk 0 (-1/10) (-1)) (by with_unfolding_all decide)⟩

/-- The transcendental functions the trajectory generator evaluates on
doubles, abstracted as an oracle so the embedding stays exact: `cosF` and
`sinF` are used only inside pose integration and `sqrtF` only for the
distance-based step-count heuristic. Every theorem below holds for every
oracle, in particular for rational approximations of the true cos, sin and
sqrt. -/
structure TrigOracle where
  cosF : ℚ → ℚ
  sinF : ℚ → ℚ
  sqrtF : ℚ → ℚ

/-- Configuration of the `StandardTrajectoryGenerator` (the sampling
parameters declared in standard_traj_generator.hpp lines 125-137): total
simulated horizon, the discretization mode, and the time / linear / angular
granularities. -/
structure TrajConfig where
  sim_time : ℚ
  discretize_by_time : Bool
  time_granularity : ℚ
  linear_granularity : ℚ
  angular_granularity : ℚ

/-- Modelled from the spec: `StandardTrajectoryGenerator::computeNewVelocity`
(declared at standard_traj_generator.hpp lines 91-93; the .cpp body is not in
the source tree). Spec section 4.3: each axis independently moves from the
previous achieved velocity toward the commanded component, limited by that
axis's acceleration/deceleration limits over the step duration. -/
def computeNewVelocity (k : KinematicParameters) (cmd_vel start_vel : Twist2D)
    (dt : ℚ) : Twist2D :=
  { x := projectVelocity start_vel.x k.s.acc_lim_x k.s.decel_lim_x dt cmd_vel.x
    y := projectVelocity start_vel.y k.s.acc_lim_y k.s.decel_lim_y dt cmd_vel.y
    theta := projectVelocity start_vel.theta k.s.acc_lim_theta k.s.decel_lim_theta dt
      cmd_vel.theta }

/-- Modelled from the spec: `StandardTrajectoryGenerator::computeNewPosition`
(declared at standard_traj_generator.hpp lines 103-105; the .cpp body is not
in the source tree). Spec section 4.3: holonomic Euler step — the body-frame
velocity is rotated into the world frame at the pre-step heading. -/
def computeNewPosition (o : TrigOracle) (start_pose : Pose2D) (vel : Twist2D)
    (dt : ℚ) : Pose2D :=
  { x := start_pose.x + (vel.x * o.cosF start_pose.theta - vel.y * o.sinF start_pose.theta) * dt
    y := start_pose.y + (vel.x * o.sinF start_pose.theta + vel.y * o.cosF start_pose.theta) * dt
    theta := start_pose.theta + vel.theta * dt }

/-- Modelled from the spec: the step count of
`StandardTrajectoryGenerator::getTimeSteps` (declared at
standard_traj_generator.hpp line 120; the .cpp body is not in the source
tree). Spec section 4.3: either fixed-size steps spanning the horizon at the
time granularity, or a count chosen so that neither the projected linear
travel nor the projected rotation per step exceeds its granularity; at least
one step is always taken. -/
def numSteps (cfg : TrajConfig) (o : TrigOracle) (cmd_vel : Twist2D) : ℕ :=
  let raw : ℤ :=
    if cfg.discretize_by_time then ⌈cfg.sim_time / cfg.time_granularity⌉
    else
      let vmag := o.sqrtF (cmd_vel.x * cmd_vel.x + cmd_vel.y * cmd_vel.y)
      ⌈max (vmag * cfg.sim_time / cfg.linear_granularity)
        (|cmd_vel.theta| * cfg.sim_time / cfg.angular_granularity)⌉
  max 1 raw.toNat

/-- Modelled from the spec: `StandardTrajectoryGenerator::getTimeSteps` — the
horizon is split into `numSteps` equal time deltas. -/
def getTimeSteps (cfg : TrajConfig) (o : TrigOracle) (cmd_vel : Twist2D) : List ℚ :=
  List.replicate (numSteps cfg o cmd_vel) (cfg.sim_time / (numSteps cfg o cmd_vel : ℚ))

/-- A generated trajectory: the originating twist, the pose samples and the
total duration (dwb_msgs Trajectory2D). -/
structure Trajectory2D where
  velocity : Twist2D
  poses : List Pose2D
  duration : ℚ
deriving DecidableEq

/-- Modelled from the spec: the simulation loop of
`StandardTrajectoryGenerator::generateTrajectory` — for each time delta the
current pose is recorded, the velocity is stepped under the acceleration
limits, and the pose is Euler-integrated; the final pose is recorded after
the loop. -/
def simPoses (k : KinematicParameters) (o : TrigOracle) (cmd_vel : Twist2D) :
    List ℚ → Pose2D → Twist2D → List Pose2D
  | [], pose, _ => [pose]
  | dt :: rest, pose, vel =>
      let nv := computeNewVelocity k cmd_vel vel dt
      pose :: simPoses k o cmd_vel rest (computeNewPosition o pose nv dt) nv

/-- Modelled from the spec: `StandardTrajectoryGenerator::generateTrajectory`
(declared at standard_traj_generator.hpp lines 63-66; the .cpp body is not in
the source tree). A pure function of the start pose, start velocity,
commanded twist and the configured limits and granularities. -/
def generateTrajectory (k : KinematicParameters) (cfg : TrajConfig) (o : TrigOracle)
    (start_pose : Pose2D) (start_vel cmd_vel : Twist2D) : Trajectory2D :=
  let steps := getTimeSteps cfg o cmd_vel
  { velocity := cmd_vel
    poses := simPoses k o cmd_vel steps start_pose start_vel
    duration := steps.sum }

/-- One axis of the acceleration clipping: with a nonnegative acceleration
limit, a nonpositive deceleration limit and a nonnegative step duration, the
projected velocity is the target clamped into the reachable band around the
previous velocity. -/
lemma projectVelocity_clamp (v0 a d dt t : ℚ) (ha : 0 ≤ a) (hd : d ≤ 0) (hdt : 0 ≤ dt) :
    projectVelocity v0 a d dt t = max (v0 + d * dt) (min t (v0 + a * dt)) := by
  have h1 : v0 + d * dt ≤ v0 := by nlinarith
  have h2 : v0 ≤ v0 + a * dt := by nlinarith
  unfold projectVelocity
  rcases le_or_lt v0 t with h | h
  · rw [if_pos h, max_eq_right (le_min (h1.trans h) (h1.trans h2))]
  · rw [if_neg (not_le.mpr h), min_eq_left (h.le.trans h2), max_comm]

/-- The repeated velocity update from a fixed start, one entry per
simulation step: the achieved-velocity sequence of the accel test. -/
def velIterate (k : KinematicParameters) (cmd_vel : Twist2D) (dt : ℚ)
    (v0 : Twist2D) : ℕ → Twist2D
  | 0 => v0
  | n + 1 => computeNewVelocity k cmd_vel (velIterate k cmd_vel dt v0 n) dt

/-- The kinematic configuration of the repository's accel test: defaults
with acc_lim_x = 0.1 and min_speed_xy disabled. -/
def accelTestSettings : KinematicSettings :=
  { defaultSettings with acc_lim_x := 1/10, min_speed_xy := -1 }

/-- The commanded twist of the accel test: forward at 0.3 m/s. -/
def forwardTwist : Twist2D := ⟨3/10, 0, 0⟩

/-- Claim C4: at every step and on every axis independently, the achieved
velocity equals the commanded component clamped so that it differs from the
previous step's achieved velocity by at most the acceleration limit (when
increasing) or the deceleration limit (when decreasing) times the step
duration; and, concretely, from rest with acc_lim_x = 0.1 and 1-second steps
toward vx = 0.3 the achieved vx sequence is 0.1, 0.2, 0.3, 0.3. -/
theorem computeNewVelocity_clamp (k : KinematicParameters) (cmd_vel start_vel : Twist2D)
    (dt : ℚ) (hax : 0 ≤ k.s.acc_lim_x) (hay : 0 ≤ k.s.acc_lim_y)
    (hat : 0 ≤ k.s.acc_lim_theta) (hdx : k.s.decel_lim_x ≤ 0)
    (hdy : k.s.decel_lim_y ≤ 0) (hdth : k.s.decel_lim_theta ≤ 0) (hdt : 0 ≤ dt) :
    ((computeNewVelocity k cmd_vel start_vel dt).x
        = max (start_vel.x + k.s.decel_lim_x * dt)
            (min cmd_vel.x (start_vel.x + k.s.acc_lim_x * dt)) ∧
      (computeNewVelocity k cmd_vel start_vel dt).y
        = max (start_vel.y + k.s.decel_lim_y * dt)
            (min cmd_vel.y (start_vel.y + k.s.acc_lim_y * dt)) ∧
      (computeNewVelocity k cmd_vel start_vel dt).theta
        = max (start_vel.theta + k.s.decel_lim_theta * dt)
            (min cmd_vel.theta (start_vel.theta + k.s.acc_lim_theta * dt))) ∧
    ((velIterate (KinematicParameters.fromSettings accelTestSettings) forwardTwist 1
        Twist2D.zero 1).x = 1/10 ∧
      (velIterate (KinematicParameters.fromSettings accelTestSettings) forwardTwist 1
        Twist2D.zero 2).x = 2/10 ∧
      (velIterate (KinematicParameters.fromSettings accelTestSettings) forwardTwist 1
        Twist2D.zero 3).x = 3/10 ∧
      (velIterate (KinematicParameters.fromSettings accelTestSettings) forwardTwist 1
        Twist2D.zero 4).x = 3/10) := by
  refine ⟨⟨?_, ?_, ?_⟩, ?_⟩
  · exact projectVelocity_clamp _ _ _ _ _ hax hdx hdt
  · exact projectVelocity_clamp _ _ _ _ _ hay hdy hdt
  · exact projectVelocity_clamp _ _ _ _ _ hat hdth hdt
  · refine ⟨?_, ?_, ?_, ?_⟩ <;> with_unfolding_all decide

/-- Witness for claim C4 at the accel-test configuration, dt = 1 second,
command (0.3, 0, 0), start velocity zero. -/
theorem computeNewVelocity_clamp_witness :
    ((0 : ℚ) ≤ (KinematicParameters.fromSettings accelTestSettings).s.acc_lim_x ∧
      (0 : ℚ) ≤ (KinematicParameters.fromSettings accelTestSettings).s.acc_lim_y ∧
      (0 : ℚ) ≤ (KinematicParameters.fromSettings accelTestSettings).s.acc_lim_theta ∧
      (KinematicParameters.fromSettings accelTestSettings).s.decel_lim_x ≤ 0 ∧
      (KinematicParameters.fromSettings accelTestSettings).s.decel_lim_y ≤ 0 ∧
      (KinematicParameters.fromSettings accelTestSettings).s.decel_lim_theta ≤ 0 ∧
      (0 : ℚ) ≤ 1) ∧
    (((computeNewVelocity (KinematicParameters.fromSettings accelTestSettings)
        forwardTwist Twist2D.zero 1).x
        = max (Twist2D.zero.x +
            (KinematicParameters.fromSettings accelTestSettings).s.decel_lim_x * 1)
            (min forwardTwist.x (Twist2D.zero.x +
              (KinematicParameters.fromSettings accelTestSettings).s.acc_lim_x * 1)) ∧
      (computeNewVelocity (KinematicParameters.fromSettings accelTestSettings)
        forwardTwist Twist2D.zero 1).y
        = max (Twist2D.zero.y +
            (KinematicParameters.fromSettings accelTestSettings).s.decel_lim_y * 1)
            (min forwardTwist.y (Twist2D.zero.y +
              (KinematicParameters.fromSettings accelTestSettings).s.acc_lim_y * 1)) ∧
      (computeNewVelocity (KinematicParameters.fromSettings accelTestSettings)
        forwardTwist Twist2D.zero 1).theta
        = max (Twist2D.zero.theta +
            (KinematicParameters.fromSettings accelTestSettings).s.decel_lim_theta * 1)
            (min forwardTwist.theta (Twist2D.zero.theta +
              (KinematicParameters.fromSettings accelTestSettings).s.acc_lim_theta * 1))) ∧
      ((velIterate (KinematicParameters.fromSettings accelTestSettings) forwardTwist 1
          Twist2D.zero 1).x = 1/10 ∧
        (velIterate (KinematicParameters.fromSettings accelTestSettings) forwardTwist 1
          Twist2D.zero 2).x = 2/10 ∧
        (velIterate (KinematicParameters.fromSettings accelTestSettings) forwardTwist 1
          Twist2D.zero 3).x = 3/10 ∧
        (velIterate (KinematicParameters.fromSettings accelTestSettings) forwardTwist 1
          Twist2D.zero 4).x = 3/10)) :=
  ⟨by with_unfolding_all decide,
    computeNewVelocity_clamp (KinematicParameters.fromSettings accelTestSettings)
      forwardTwist Twist2D.zero 1
      (by with_unfolding_all decide) (by with_unfolding_all decide)
      (by with_unfolding_all decide) (by with_unfolding_all decide)
      (by with_unfolding_all decide) (by with_unfolding_all decide)
      (by with_unfolding_all decide)⟩

/-- Claim C8: trajectory generation is deterministic and pure — two calls
with identical start pose, start velocity, commanded twist and identical
configuration (kinematic limits, sampling configuration and the same
transcendental evaluations) produce identical trajectories: the same pose
sequence with exact numeric equality, the same velocity and the same
duration. -/
theorem generateTrajectory_deterministic (k : KinematicParameters) (cfg : TrajConfig)
    (o : TrigOracle) (p1 p2 : Pose2D) (v1 v2 c1 c2 : Twist2D)
    (hp : p1 = p2) (hv : v1 = v2) (hc : c1 = c2) :
    (generateTrajectory k cfg o p1 v1 c1).poses = (generateTrajectory k cfg o p2 v2 c2).poses ∧
    (generateTrajectory k cfg o p1 v1 c1).velocity
      = (generateTrajectory k cfg o p2 v2 c2).velocity ∧
    (generateTrajectory k cfg o p1 v1 c1).duration
      = (generateTrajectory k cfg o p2 v2 c2).duration := by
  subst hp hv hc
  exact ⟨rfl, rfl, rfl⟩

/-- Witness for claim C8 at the basic-test configuration. -/
theorem generateTrajectory_deterministic_witness :
    ((⟨0, 0, 0⟩ : Pose2D) = ⟨0, 0, 0⟩ ∧ forwardTwist = forwardTwist) ∧
    ((generateTrajectory (KinematicParameters.fromSettings defaultSettings)
        ⟨17/10, true, 1/4, 1/2, 1/40⟩ ⟨fun _ => 1, fun _ => 0, fun _ => 0⟩
        ⟨0, 0, 0⟩ forwardTwist forwardTwist).poses
      = (generateTrajectory (KinematicParameters.fromSettings defaultSettings)
        ⟨17/10, true, 1/4, 1/2, 1/40⟩ ⟨fun _ => 1, fun _ => 0, fun _ => 0⟩
        ⟨0, 0, 0⟩ forwardTwist forwardTwist).poses ∧
      (generateTrajectory (KinematicParameters.fromSettings defaultSettings)
        ⟨17/10, true, 1/4, 1/2, 1/40⟩ ⟨fun _ => 1, fun _ => 0, fun _ => 0⟩
        ⟨0, 0, 0⟩ forwardTwist forwardTwist).velocity
      = (generateTrajectory (KinematicParameters.fromSettings defaultSettings)
        ⟨17/10, true, 1/4, 1/2, 1/40⟩ ⟨fun _ => 1, fun _ => 0, fun _ => 0⟩
        ⟨0, 0, 0⟩ forwardTwist forwardTwist).velocity ∧
      (generateTrajectory (KinematicParameters.fromSettings defaultSettings)
        ⟨17/10, true, 1/4, 1/2, 1/40⟩ ⟨fun _ => 1, fun _ => 0, fun _ => 0⟩
        ⟨0, 0, 0⟩ forwardTwist forwardTwist).duration
      = (generateTrajectory (KinematicParameters.fromSettings defaultSettings)
        ⟨17/10, true, 1/4, 1/2, 1/40⟩ ⟨fun _ => 1, fun _ => 0, fun _ => 0⟩
        ⟨0, 0, 0⟩ forwardTwist forwardTwist).duration) :=
  ⟨⟨rfl, rfl⟩,
    generateTrajectory_deterministic (KinematicParameters.fromSettings defaultSettings)
      ⟨17/10, true, 1/4, 1/2, 1/40⟩ ⟨fun _ => 1, fun _ => 0, fun _ => 0⟩
      ⟨0, 0, 0⟩ ⟨0, 0, 0⟩ forwardTwist forwardTwist forwardTwist forwardTwist
      rfl rfl rfl⟩

/-- Claim C9: for every start pose, start velocity and commanded twist, the
generated trajectory is non-empty, its first pose is exactly the start pose
(componentwise equality), and its reported duration equals the configured
total simulation time — whatever the step count the discretization chose. -/
theorem generateTrajectory_head_duration (k : KinematicParameters) (cfg : TrajConfig)
    (o : TrigOracle) (start_pose : Pose2D) (start_vel cmd_vel : Twist2D) :
    (generateTrajectory k cfg o start_pose start_vel cmd_vel).poses ≠ [] ∧
    (generateTrajectory k cfg o start_pose start_vel cmd_vel).poses.head?
      = some start_pose ∧
    (generateTrajectory k cfg o start_pose start_vel cmd_vel).duration = cfg.sim_time := by
  have hn : 1 ≤ numSteps cfg o cmd_vel := le_max_left 1 _
  have hhead : ∀ (steps : List ℚ) (p : Pose2D) (v : Twist2D),
      (simPoses k o cmd_vel steps p v).head? = some p ∧ simPoses k o cmd_vel steps p v ≠ [] := by
    intro steps p v
    cases steps <;> simp [simPoses]
  refine ⟨(hhead _ _ _).2, (hhead _ _ _).1, ?_⟩
  show (getTimeSteps cfg o cmd_vel).sum = cfg.sim_time
  rw [getTimeSteps, List.sum_replicate, nsmul_eq_mul]
  have hne : ((numSteps cfg o cmd_vel : ℚ)) ≠ 0 := by
    have : numSteps cfg o cmd_vel ≠ 0 := by omega
    exact_mod_cast this
  field_simp

/-- The accumulation loop of `DWBLocalPlanner::scoreTrajectory`
(dwb_local_planner.cpp, staged in the source tree as the second document of
nav_2d_utils/odom_subscriber.hpp, lines 541-570). The trajectory's per-critic
weighted contributions are accumulated in order from a zero total; a
zero-scale critic is recorded but skipped without scoring or a threshold
check (lines 554-557); after each addition, if the supplied best_score is
strictly positive and the running total strictly exceeds it, the loop breaks
and the partial total is returned (lines 563-566). The per-critic exception
path (illegal trajectories) is outside this model: the claim's premise is
that every critic returns a nonnegative numeric score. -/
def scoreAux (best : ℚ) : List (ℚ × ℚ) → ℚ → ℚ
  | [], total => total
  | (w, sc) :: rest, total =>
      if w = 0 then scoreAux best rest total
      else
        if 0 < best ∧ best < total + w * sc then total + w * sc
        else scoreAux best rest (total + w * sc)

/-- The fully accumulated weighted total of a score list. -/
def fullTotal (l : List (ℚ × ℚ)) : ℚ := (l.map fun c => c.1 * c.2).sum

variable {α : Type}

/-- A critic pipeline is a list of critics, each a configured scale (weight)
paired with a raw scoring function over trajectories; scoring a trajectory
accumulates its (scale, raw score) pairs in pipeline order, as
`DWBLocalPlanner::scoreTrajectory` does. -/
def scoreTrajectory (critics : List (ℚ × (α → ℚ))) (best : ℚ) (t : α) : ℚ :=
  scoreAux best (critics.map fun c => (c.1, c.2 t)) 0

/-- One iteration of the candidate loop of
`DWBLocalPlanner::coreScoringAlgorithm` (odom_subscriber.hpp second
document, lines 488-524): the candidate is scored with the incumbent best
total as the early-exit threshold (line 493), and it replaces the incumbent
when the incumbent is still the -1 sentinel or the candidate's total is
strictly lower (line 498) — so ties favor the earlier candidate. The
accumulator pairs the chosen candidate (none before any legal candidate)
with the incumbent best total. -/
def coreScoringStep (critics : List (ℚ × (α → ℚ))) (acc : Option α × ℚ) (t : α) :
    Option α × ℚ :=
  if acc.2 < 0 ∨ scoreTrajectory critics acc.2 t < acc.2 then
    (some t, scoreTrajectory critics acc.2 t)
  else acc

/-- One iteration of the same loop with early exit disabled: every candidate
is scored with the negative sentinel, hence fully. -/
def coreScoringFullStep (critics : List (ℚ × (α → ℚ))) (acc : Option α × ℚ) (t : α) :
    Option α × ℚ :=
  if acc.2 < 0 ∨ scoreTrajectory critics (-1) t < acc.2 then
    (some t, scoreTrajectory critics (-1) t)
  else acc

/-- The best-trajectory reduction of `DWBLocalPlanner::coreScoringAlgorithm`
(odom_subscriber.hpp second document, lines 474-539): starting from
best.total = -1, every candidate is scored with the current best total as
the early-exit threshold and the lowest total wins. The worst-trajectory
tracking and the diagnostics recording of the source do not feed back into
the best, and the illegal-trajectory exception path is vacuous under the
claim's premise that every critic returns a numeric score. -/
def coreScoring (critics : List (ℚ × (α → ℚ))) (trajs : List α) : Option α × ℚ :=
  trajs.foldl (coreScoringStep critics) (none, -1)

/-- The same reduction with early exit disabled: the reference in which
every trajectory is scored fully. -/
def coreScoringFull (critics : List (ℚ × (α → ℚ))) (trajs : List α) : Option α × ℚ :=
  trajs.foldl (coreScoringFullStep critics) (none, -1)

lemma fullTotal_cons (w sc : ℚ) (l : List (ℚ × ℚ)) :
    fullTotal ((w, sc) :: l) = w * sc + fullTotal l := by
  simp [fullTotal]

lemma fullTotal_nonneg (l : List (ℚ × ℚ)) (h : ∀ c ∈ l, 0 ≤ c.1 * c.2) :
    0 ≤ fullTotal l := by
  apply List.sum_nonneg
  intro a ha
  obtain ⟨c, hc, rfl⟩ := List.mem_map.mp ha
  exact h c hc

/-- With a nonpositive threshold (in particular the -1 sentinel), the
early-exit guard best_score > 0 never fires and the accumulation always
runs to completion. -/
lemma scoreAux_nonpos (best : ℚ) (hb : best ≤ 0) :
    ∀ (l : List (ℚ × ℚ)) (total : ℚ), scoreAux best l total = total + fullTotal l := by
  intro l
  induction l with
  | nil => intro total; simp [scoreAux, fullTotal]
  | cons c rest ih =>
      intro total
      obtain ⟨w, sc⟩ := c
      rw [scoreAux]
      split_ifs with h1 h2
      · rw [ih, fullTotal_cons, h1]
        ring
      · exact absurd h2.1 (not_lt.mpr hb)
      · rw [ih, fullTotal_cons]
        ring

/-- Either the accumulation runs to completion, or it exits early with a
partial total that already exceeds the (strictly positive) threshold and
that is a lower bound of the full total when all contributions are
nonnegative. -/
lemma scoreAux_cases (best : ℚ) :
    ∀ (l : List (ℚ × ℚ)), (∀ c ∈ l, 0 ≤ c.1 * c.2) → ∀ total : ℚ,
      scoreAux best l total = total + fullTotal l ∨
      (0 < best ∧ best < scoreAux best l total ∧
        scoreAux best l total ≤ total + fullTotal l) := by
  intro l
  induction l with
  | nil => intro _ total; left; simp [scoreAux, fullTotal]
  | cons c rest ih =>
      rintro h total
      obtain ⟨w, sc⟩ := c
      have hws : 0 ≤ w * sc := h (w, sc) (List.mem_cons_self _ _)
      have hrest : ∀ c ∈ rest, 0 ≤ c.1 * c.2 := fun c hc => h c (List.mem_cons_of_mem _ hc)
      have hfr : 0 ≤ fullTotal rest := fullTotal_nonneg rest hrest
      rw [scoreAux]
      split_ifs with h1 h2
      · rcases ih hrest total with he | ⟨hb0, hlt, hle⟩
        · left
          rw [he, fullTotal_cons, h1]
          ring
        · right
          refine ⟨hb0, hlt, ?_⟩
          rw [fullTotal_cons, h1]
          linarith
      · right
        refine ⟨h2.1, h2.2, ?_⟩
        rw [fullTotal_cons]
        linarith
      · rcases ih hrest (total + w * sc) with he | ⟨hb0, hlt, hle⟩
        · left
          rw [he, fullTotal_cons]
          ring
        · right
          refine ⟨hb0, hlt, ?_⟩
          rw [fullTotal_cons]
          linarith

/-- Early-exit scoring and full scoring make the same comparison against the
incumbent best score, and agree exactly when the candidate wins. -/
lemma scoreAux_lt_iff (best : ℚ) (l : List (ℚ × ℚ)) (h : ∀ c ∈ l, 0 ≤ c.1 * c.2) :
    (scoreAux best l 0 < best ↔ fullTotal l < best) ∧
    (fullTotal l < best → scoreAux best l 0 = fullTotal l) := by
  rcases scoreAux_cases best l h 0 with he | ⟨hb0, hlt, hle⟩
  · rw [he, zero_add]
    exact ⟨Iff.rfl, fun _ => rfl⟩
  · rw [zero_add] at hle
    constructor
    · exact iff_of_false (not_lt.mpr hlt.le) (not_lt.mpr (hlt.le.trans hle))
    · intro hf
      exact absurd (hlt.trans_le hle) (not_lt.mpr hf.le)

/-- When the candidate's weighted contributions are all nonnegative, one
early-exit reduction step equals one full-scoring reduction step, whatever
the incumbent accumulator. -/
lemma coreScoringStep_eq_full (critics : List (ℚ × (α → ℚ))) (t : α)
    (h : ∀ c ∈ critics, 0 ≤ c.1 ∧ 0 ≤ c.2 t) (acc : Option α × ℚ) :
    coreScoringStep critics acc t = coreScoringFullStep critics acc t := by
  obtain ⟨b, bs⟩ := acc
  have hnn : ∀ c ∈ (critics.map fun c => (c.1, c.2 t)), 0 ≤ c.1 * c.2 := by
    intro c hc
    obtain ⟨c0, hc0, rfl⟩ := List.mem_map.mp hc
    exact mul_nonneg (h c0 hc0).1 (h c0 hc0).2
  have hfull : scoreTrajectory critics (-1) t =
      fullTotal (critics.map fun c => (c.1, c.2 t)) := by
    rw [scoreTrajectory, scoreAux_nonpos (-1) (by norm_num), zero_add]
  unfold coreScoringStep coreScoringFullStep
  by_cases hbs : bs < 0
  · have hsc : scoreTrajectory critics bs t =
        fullTotal (critics.map fun c => (c.1, c.2 t)) := by
      rw [scoreTrajectory, scoreAux_nonpos bs hbs.le, zero_add]
    rw [if_pos (Or.inl hbs), if_pos (Or.inl hbs)]
    rw [hsc, hfull]
  · have hiff := scoreAux_lt_iff bs (critics.map fun c => (c.1, c.2 t)) hnn
    rw [hfull]
    simp only [scoreTrajectory]
    by_cases hlt : fullTotal (critics.map fun c => (c.1, c.2 t)) < bs
    · rw [if_pos (Or.inr ((hiff.1).mpr hlt)), if_pos (Or.inr hlt), hiff.2 hlt]
    · rw [if_neg ?_, if_neg ?_]
      · rintro (hc | hc)
        · exact hbs hc
        · exact hlt hc
      · rintro (hc | hc)
        · exact hbs hc
        · exact hlt ((hiff.1).mp hc)

/-- Claim C3: when every critic's raw score is nonnegative over the candidate
set (scales being nonnegative multipliers), the best-trajectory reduction
with early exit enabled selects the same best trajectory, at the same
recorded score, as scoring every trajectory fully: a candidate whose scoring
was cut short never becomes the selected best. -/
theorem coreScoring_earlyExit_eq_full (critics : List (ℚ × (α → ℚ))) (trajs : List α)
    (hw : ∀ c ∈ critics, 0 ≤ c.1) (hs : ∀ c ∈ critics, ∀ t ∈ trajs, 0 ≤ c.2 t) :
    coreScoring critics trajs = coreScoringFull critics trajs := by
  unfold coreScoring coreScoringFull
  have main : ∀ (l : List α), (∀ t ∈ l, ∀ c ∈ critics, 0 ≤ c.1 ∧ 0 ≤ c.2 t) →
      ∀ acc : Option α × ℚ,
        l.foldl (coreScoringStep critics) acc = l.foldl (coreScoringFullStep critics) acc := by
    intro l
    induction l with
    | nil => intro _ _; rfl
    | cons t ts ih =>
        intro hl acc
        rw [List.foldl_cons, List.foldl_cons,
          coreScoringStep_eq_full critics t (hl t (List.mem_cons_self _ _)) acc]
        exact ih (fun t' ht' => hl t' (List.mem_cons_of_mem _ ht')) _
  exact main trajs (fun t ht c hc => ⟨hw c hc, hs c hc t ht⟩) (none, -1)

/-- Witness for claim C3: a concrete two-critic pipeline with nonnegative
scales and raw scores over three candidates, where early-exit and full
scoring agree on the selected best. -/
theorem coreScoring_earlyExit_eq_full_witness :
    ((∀ c ∈ [((1 : ℚ), fun t : ℚ => t * t), ((2 : ℚ), fun t : ℚ => t + 1)], 0 ≤ c.1) ∧
      (∀ c ∈ [((1 : ℚ), fun t : ℚ => t * t), ((2 : ℚ), fun t : ℚ => t + 1)],
        ∀ t ∈ [(3 : ℚ), 1, 2], 0 ≤ c.2 t)) ∧
    coreScoring [((1 : ℚ), fun t : ℚ => t * t), ((2 : ℚ), fun t : ℚ => t + 1)]
        [(3 : ℚ), 1, 2]
      = coreScoringFull [((1 : ℚ), fun t : ℚ => t * t), ((2 : ℚ), fun t : ℚ => t + 1)]
        [(3 : ℚ), 1, 2] :=
  ⟨⟨by with_unfolding_all decide, by with_unfolding_all decide⟩,
    coreScoring_earlyExit_eq_full
      [((1 : ℚ), fun t : ℚ => t * t), ((2 : ℚ), fun t : ℚ => t + 1)] [(3 : ℚ), 1, 2]
      (by with_unfolding_all decide) (by with_unfolding_all decide)⟩

/-- Modelled from the spec: angle normalization into one period around zero
(the angles helper used by the goal checkers, not in the source tree). The
model's value of pi is a parameter; the result lies in [-pi, pi) and equals
the input minus a whole number of turns. -/
def normAngle (pi x : ℚ) : ℚ := x - 2 * pi * (⌊(x + pi) / (2 * pi)⌋ : ℤ)

/-- Modelled from the spec: `SimpleGoalChecker::isGoalReached` — the
proximity goal checker (simple_goal_checker.cpp is not in the source tree;
modelled from spec section 4.7 and the repository's goal_checker test). True
iff the squared position distance is within the squared tolerance and the
heading difference, normalized into one period, is within the yaw
tolerance; the velocity argument is ignored by this variant. -/
def isGoalReached (pi xyTol yawTol : ℚ) (query goal : Pose2D) (_vel : Twist2D) : Bool :=
  decide ((query.x - goal.x) * (query.x - goal.x) +
      (query.y - goal.y) * (query.y - goal.y) ≤ xyTol * xyTol) &&
    decide (|normAngle pi (goal.theta - query.theta)| ≤ yawTol)

/-- For a nonnegative rational threshold m, hypot(x, y) is within m iff the
squared comparison the code performs holds. -/
lemma hypotR_le_iff (x y m : ℚ) (hm : 0 ≤ m) :
    hypotR x y ≤ (m : ℝ) ↔ x * x + y * y ≤ m * m := by
  rw [hypotR, show ((m : ℝ)) = Real.sqrt ((m : ℝ) ^ 2) from (Real.sqrt_sq (by exact_mod_cast hm)).symm,
    Real.sqrt_le_sqrt_iff (by positivity), hypotR_arg_cast,
    show ((m : ℝ)) ^ 2 = ((m * m : ℚ) : ℝ) by push_cast; ring]
  exact Rat.cast_le

/-- A heading difference of exactly one full negative turn normalizes to
zero: headings pi and -pi compare as a zero difference. -/
lemma normAngle_neg_two_pi (pi : ℚ) (hpi : 0 < pi) : normAngle pi (-pi - pi) = 0 := by
  have hpi0 : pi ≠ 0 := ne_of_gt hpi
  have h1 : (-pi - pi + pi) / (2 * pi) = -(1/2 : ℚ) := by
    field_simp
    ring
  have h2 : (⌊(-(1/2) : ℚ)⌋ : ℤ) = -1 := by norm_num
  rw [normAngle, h1, h2]
  push_cast
  ring

/-- Claim C6: the proximity goal checker returns true exactly when the
position distance hypot(dx, dy) is within the configured tolerance (equality
accepted) and the absolute normalized heading difference is within the
configured tolerance; and a heading difference of pi versus -pi normalizes
to a zero difference, so such poses compare as equal in heading. -/
theorem isGoalReached_iff (pi xyTol yawTol : ℚ) (query goal : Pose2D) (vel : Twist2D)
    (hpi : 0 < pi) (hxy : 0 ≤ xyTol) :
    (isGoalReached pi xyTol yawTol query goal vel = true ↔
      (hypotR (query.x - goal.x) (query.y - goal.y) ≤ (xyTol : ℝ) ∧
        |normAngle pi (goal.theta - query.theta)| ≤ yawTol)) ∧
    normAngle pi (-pi - pi) = 0 := by
  refine ⟨?_, normAngle_neg_two_pi pi hpi⟩
  rw [isGoalReached, Bool.and_eq_true, decide_eq_true_eq, decide_eq_true_eq,
    hypotR_le_iff _ _ _ hxy]

/-- Witness for claim C6 with pi approximated as 3.14159, both tolerances
0.25, the query pose at heading 3.14 exactly at tolerance distance from a
goal at heading -3.14: the goal is reached, and the theorem's
characterization holds at these inputs. -/
theorem isGoalReached_iff_witness :
    ((0 : ℚ) < 314159/100000 ∧ (0 : ℚ) ≤ 1/4) ∧
    ((isGoalReached (314159/100000) (1/4) (1/4) ⟨1/4, 0, 157/50⟩ ⟨0, 0, -157/50⟩
        Twist2D.zero = true ↔
      (hypotR ((⟨1/4, 0, 157/50⟩ : Pose2D).x - (⟨0, 0, -157/50⟩ : Pose2D).x)
          ((⟨1/4, 0, 157/50⟩ : Pose2D).y - (⟨0, 0, -157/50⟩ : Pose2D).y) ≤ ((1/4 : ℚ) : ℝ) ∧
        |normAngle (314159/100000) ((⟨0, 0, -157/50⟩ : Pose2D).theta -
          (⟨1/4, 0, 157/50⟩ : Pose2D).theta)| ≤ 1/4)) ∧
      normAngle (314159/100000) (-(314159/100000) - 314159/100000) = 0) ∧
    isGoalReached (314159/100000) (1/4) (1/4) ⟨1/4, 0, 157/50⟩ ⟨0, 0, -157/50⟩
      Twist2D.zero = true :=
  ⟨⟨by norm_num, by norm_num⟩,
    isGoalReached_iff (314159/100000) (1/4) (1/4) ⟨1/4, 0, 157/50⟩ ⟨0, 0, -157/50⟩
      Twist2D.zero (by norm_num) (by norm_num),
    by with_unfolding_all decide⟩

/-- Squared planar distance between two poses: the helper
`getSquareDistance` of dwb_local_planner.cpp (staged in the source tree as
the second document of nav_2d_utils/odom_subscriber.hpp, lines 572-581). -/
def getSquareDistance (a b : Pose2D) : ℚ :=
  (a.x - b.x) * (a.x - b.x) + (a.y - b.y) * (a.y - b.y)

/-- The catch-up test of `DWBLocalPlanner::transformGlobalPlan`
(odom_subscriber.hpp second document, lines 638-642): a stored pose is where
the transformed window may start when its squared distance to the robot is
strictly below the squared start threshold. -/
def withinStartThreshold (sqStartThr : ℚ) (robot q : Pose2D) : Bool :=
  decide (getSquareDistance robot q < sqStartThr)

/-- The horizon test of `transformGlobalPlan` (lines 646-650): the window
ends at the first pose whose squared distance to the robot strictly exceeds
the squared end threshold. -/
def beyondEndThreshold (sqEndThr : ℚ) (robot q : Pose2D) : Bool :=
  decide (sqEndThr < getSquareDistance robot q)

/-- The index of `transformation_begin` in `transformGlobalPlan` (lines
638-642): the first stored pose strictly within the squared start threshold
of the robot; the poses before it are the ones the robot has already
passed. The squared thresholds themselves are computed from the costmap
extent and the prune distance (lines 599-634), both taken here as
parameters. -/
def transformationBeginIdx (sqStartThr : ℚ) (robot : Pose2D) (path : List Pose2D) : ℕ :=
  path.findIdx (withinStartThreshold sqStartThr robot)

/-- The pruning side effect of `transformGlobalPlan` (lines 673-678): when
prune_plan is enabled, everything before `transformation_begin` is erased
from the stored global plan, permanently. -/
def pruneGlobalPlan (sqStartThr : ℚ) (robot : Pose2D) (path : List Pose2D) : List Pose2D :=
  path.drop (transformationBeginIdx sqStartThr robot path)

/-- The windowing of `transformGlobalPlan` (lines 638-671): the contiguous
run of stored poses from `transformation_begin` up to (excluding) the first
pose strictly beyond the squared end threshold. The source applies a frame
transform to each selected pose (an external tf collaborator, lines
657-671); the model keeps the selected poses in the plan frame, which does
not change which stored poses are selected. -/
def localWindow (sqStartThr sqEndThr : ℚ) (robot : Pose2D) (path : List Pose2D) :
    List Pose2D :=
  (path.drop (transformationBeginIdx sqStartThr robot path)).takeWhile
    (fun q => ! beyondEndThreshold sqEndThr robot q)

/-- Every element strictly before the first index satisfying a predicate
fails the predicate. -/
lemma take_findIdx_all_not (p : α → Bool) :
    ∀ l : List α, (l.take (l.findIdx p)).all (fun a => ! p a) = true := by
  intro l
  induction l with
  | nil => rfl
  | cons a l ih =>
      rw [List.findIdx_cons]
      cases hpa : p a with
      | true => simp
      | false =>
          simp only [cond_false, List.take_succ_cons, List.all_cons, hpa,
            Bool.not_false, Bool.true_and]
          exact ih

/-- Claim C7: the stored global path only ever shrinks from the front.
Pruning drops exactly the poses strictly before `transformation_begin`, all
of which fail the strict catch-up test (so a pose within the start
threshold — a pose ahead of the robot — is never removed); the pruned plan
is a suffix of the stored plan; and after a prune, re-windowing or
re-pruning with any thresholds and robot pose (in particular the same or a
closer one) only selects from the already-pruned suffix, so no previously
pruned pose is ever re-introduced into the local path. -/
theorem transformGlobalPlan_prune_monotone (sqStartThr sqEndThr sqStartThr' : ℚ)
    (robot robot' : Pose2D) (path : List Pose2D) :
    ((path.take (transformationBeginIdx sqStartThr robot path)).all
      (fun q => ! withinStartThreshold sqStartThr robot q) = true) ∧
    List.IsSuffix (pruneGlobalPlan sqStartThr robot path) path ∧
    List.Sublist (localWindow sqStartThr' sqEndThr robot'
        (pruneGlobalPlan sqStartThr robot path))
      (pruneGlobalPlan sqStartThr robot path) ∧
    List.IsSuffix (pruneGlobalPlan sqStartThr' robot'
        (pruneGlobalPlan sqStartThr robot path))
      (pruneGlobalPlan sqStartThr robot path) := by
  refine ⟨take_findIdx_all_not _ path, ?_, ?_, ?_⟩
  · exact List.drop_suffix _ _
  · exact (List.takeWhile_sublist _).trans (List.drop_sublist _ _)
  · exact List.drop_suffix _ _

end DWB